import Mathlib

/-!
Shallow embedding of the chunked CSV job-processing engine:
the queue service (addChunkedJobs, the chunk worker, stopJob, resumeJob),
the database service (updateJobStatus, updateUrlStatus, retryFailedUrls,
retrySpecificUrls, getJobProgress) and the job routes (stop, resume, retry),
together with the per-item retry loop of the OpenAI service
(generateOpenerWithRetry).

Conventions of the embedding:
- Database rows are records; timestamps (created_at, updated_at) are not
  modelled. The urls table is a list kept in creation order, so reading it
  back corresponds to the ORDER BY created_at queries of the source.
- The BullMQ queue is a list of chunk messages. Removing a waiting chunk
  succeeds; removing the chunk currently held by the worker fails (it is
  locked), in which case the source falls back to updateData which sets a
  stopped flag on the message. Interleaving is modelled at item
  granularity, matching the per-item database reads of the worker loop.
- Progress events (progressEmitter) and logging only observe state, so
  they are omitted.
- The progress column (DECIMAL(5,2)) is modelled as a rational number.
-/

inductive ContentType
  | company
  | person
  | news
deriving DecidableEq, Repr

inductive JobStatus
  | pending
  | processing
  | completed
  | failed
  | stopped
deriving DecidableEq, Repr

inductive UrlStatus
  | pending
  | processing
  | completed
  | failed
deriving DecidableEq, Repr

/-- One row of the jobs table (database.ts, interface JobRecord); the
content_type column is read by resumeJob. -/
structure JobRow where
  id : String
  status : JobStatus
  total_rows : Nat
  processed_rows : Nat
  failed_rows : Nat
  progress : ℚ
  content_type : ContentType
deriving DecidableEq, Repr

/-- One row of the urls table (database.ts, interface UrlRecord). -/
structure UrlRow where
  id : String
  job_id : String
  url : String
  status : UrlStatus
  opener : Option String
  error : Option String
  retry_count : Nat
deriving DecidableEq, Repr

/-- An item reference as passed to addChunkedJobs: an element of the urls
array of a ChunkJobData message. -/
structure UrlRef where
  id : String
  url : String
deriving DecidableEq, Repr

/-- The slicing loop of addChunkedJobs (queue.ts):
for (let i = 0; i < urls.length; i += chunkSize) chunks.push(urls.slice(i, i + chunkSize)).
The loop advances by chunkSize each round, so list-length fuel suffices
whenever chunkSize is positive; for chunkSize = 0 the source loop never
terminates, which the fuel cuts off. -/
def chunksGo (chunkSize : Nat) : Nat → List α → List (List α)
  | 0, _ => []
  | _, [] => []
  | fuel + 1, u :: us => (u :: us).take chunkSize :: chunksGo chunkSize fuel ((u :: us).drop chunkSize)

/-- The chunks array built by addChunkedJobs before enqueueing. -/
def splitIntoChunks (urls : List α) (chunkSize : Nat) : List (List α) :=
  chunksGo chunkSize urls.length urls

/-- The queue-message identifier passed to csvProcessingQueue.add:
jobId-chunk-(i+1). -/
def chunkQueueId (jobId : String) (seq : Nat) : String :=
  jobId ++ "-chunk-" ++ toString seq

/-- A ChunkJobData message together with its BullMQ job id and the stopped
flag that stopJob or cleanupJob may patch onto the message data. -/
structure ChunkMsg where
  jobId : String
  chunk : Nat
  urls : List UrlRef
  contentType : ContentType
  queueJobId : String
  stopped : Bool
deriving DecidableEq, Repr

/-- The enqueue loop of addChunkedJobs: chunk i (0-based) becomes message
number seq0 + i carrying queue id chunkQueueId jobId (seq0 + i); the source
starts at seq0 = 1. -/
def buildChunkMsgs (jobId : String) (ct : ContentType) : Nat → List (List UrlRef) → List ChunkMsg
  | _, [] => []
  | seq, c :: cs =>
      { jobId := jobId, chunk := seq, urls := c, contentType := ct,
        queueJobId := chunkQueueId jobId seq, stopped := false }
        :: buildChunkMsgs jobId ct (seq + 1) cs

/-- addChunkedJobs (queue.ts): slice the url list into chunks of chunkSize
(the source default is 500) and build the queue messages, sequenced from 1. -/
def addChunkedJobs (jobId : String) (urls : List UrlRef) (ct : ContentType) (chunkSize : Nat) : List ChunkMsg :=
  buildChunkMsgs jobId ct 1 (splitIntoChunks urls chunkSize)

/-! The per-item retry loop of openaiService.ts. -/

/-- Boolean test that the pattern list starts the given list, used to
define the substring test of String.includes. -/
def charsStartWith : List Char → List Char → Bool
  | [], _ => true
  | _ :: _, [] => false
  | a :: as, b :: bs => a == b && charsStartWith as bs

/-- Boolean test that the pattern occurs somewhere in the list. -/
def charsOccur (pat : List Char) : List Char → Bool
  | [] => charsStartWith pat []
  | b :: bs => charsStartWith pat (b :: bs) || charsOccur pat bs

/-- JavaScript msg.includes(pat). -/
def includesSubstr (msg pat : String) : Bool :=
  charsOccur pat.data msg.data

/-- The fixed error-kind check of generateOpenerWithRetry: errors whose
message mentions an invalid API key, insufficient quota or billing are not
retried. -/
def isPermanentError (msg : String) : Bool :=
  includesSubstr msg "Invalid API key"
    || includesSubstr msg "insufficient_quota"
    || includesSubstr msg "billing"

/-- The backoff delay computed inside the retry loop:
delay = Math.pow(2, attempt) * 1000. -/
def retryDelayMs (attempt : Nat) : Nat :=
  2 ^ attempt * 1000

/-- Observable outcome of one generateOpenerWithRetry call: the returned
opener or thrown error message, the number of generateOpener invocations,
and the backoff sleeps performed between attempts. -/
structure RetryTrace where
  result : Except String String
  calls : Nat
  delays : List Nat
deriving Repr

/-- The loop body of generateOpenerWithRetry. The argument gen models
generateOpener: gen k is the outcome of the k-th invocation (an .error
carries the thrown message). The fuel counts the remaining loop rounds,
so fuel 0 is the loop exit attempt = maxRetries + 1, where the last error
(or a max-retries message when the loop never ran) is thrown. -/
def generateOpenerWithRetryGo (gen : Nat → Except String String) (maxRetries : Nat) :
    Nat → Nat → Option String → RetryTrace
  | 0, _, lastError =>
      { result := .error (lastError.getD "Max retries exceeded"), calls := 0, delays := [] }
  | fuel + 1, attempt, _ =>
      match gen attempt with
      | .ok opener => { result := .ok opener, calls := 1, delays := [] }
      | .error e =>
          if isPermanentError e then
            { result := .error e, calls := 1, delays := [] }
          else
            let rest := generateOpenerWithRetryGo gen maxRetries fuel (attempt + 1) (some e)
            { result := rest.result, calls := rest.calls + 1,
              delays := (if attempt < maxRetries then [retryDelayMs attempt] else []) ++ rest.delays }

/-- generateOpenerWithRetry (openaiService.ts): attempts 1..maxRetries,
immediate rethrow on permanent errors, exponential backoff sleep between
transient attempts. -/
def generateOpenerWithRetry (gen : Nat → Except String String) (maxRetries : Nat) : RetryTrace :=
  generateOpenerWithRetryGo gen maxRetries maxRetries 1 none

/-! DatabaseService (database.ts) as pure functions over rows. -/

/-- Number of url rows of a job in a given status (the GROUP BY status
counts of getJobProgress). -/
def countUrls (urls : List UrlRow) (jobId : String) (st : UrlStatus) : Nat :=
  (urls.filter fun r => r.job_id == jobId && r.status == st).length

/-- The record returned by DatabaseService.getJobProgress. -/
structure JobProgress where
  total : Nat
  processed : Nat
  failed : Nat
  pending : Nat
deriving DecidableEq, Repr

/-- getJobProgress (database.ts): totals come from the job row, the counts
from the urls table; pending sums the pending and processing rows. -/
def getJobProgress (j : JobRow) (urls : List UrlRow) : JobProgress :=
  { total := j.total_rows
  , processed := countUrls urls j.id .completed
  , failed := countUrls urls j.id .failed
  , pending := countUrls urls j.id .pending + countUrls urls j.id .processing }

/-- The numerator picked by updateJobStatus for the progress column:
JavaScript (processedRows || job.processed_rows), i.e. the supplied count
when it is present and nonzero, otherwise the stored count read before the
update. -/
def progressBase (j : JobRow) (processedRows : Option Nat) : Nat :=
  match processedRows with
  | some p => if p = 0 then j.processed_rows else p
  | none => j.processed_rows

/-- updateJobStatus (database.ts): sets the status, overwrites the two
counters when supplied, and recomputes progress as
(processedRows || job.processed_rows) / total_rows * 100 (0 when the job
has no rows). -/
def updateJobStatus (j : JobRow) (st : JobStatus) (processedRows failedRows : Option Nat) : JobRow :=
  { j with
    status := st
    processed_rows := processedRows.getD j.processed_rows
    failed_rows := failedRows.getD j.failed_rows
    progress :=
      if 0 < j.total_rows then ((progressBase j processedRows : ℚ) / (j.total_rows : ℚ)) * 100
      else 0 }

/-- Modelled from the spec: DatabaseService.updateJobProgress is called by
stopJob and resumeJob but its definition is not part of this tree. Per the
spec, Stop and Resume read the item-status counts and persist them onto
the Job row, so the function stores the two supplied counters. -/
def updateJobProgress (j : JobRow) (p f : Nat) : JobRow :=
  { j with processed_rows := p, failed_rows := f }

/-- updateUrlStatus (database.ts): always sets the status; the opener,
error and retry_count columns are written only when the argument is
supplied. -/
def updateUrlStatus (urls : List UrlRow) (urlId : String) (st : UrlStatus)
    (opener error : Option String) (retryCount : Option Nat) : List UrlRow :=
  urls.map fun r =>
    if r.id = urlId then
      { r with
        status := st
        opener := match opener with | some o => some o | none => r.opener
        error := match error with | some e => some e | none => r.error
        retry_count := retryCount.getD r.retry_count }
    else r

/-- The row condition of the retryFailedUrls UPDATE:
WHERE job_id = jobId AND status = failed. -/
def isRetryAllTarget (jobId : String) (r : UrlRow) : Bool :=
  r.job_id == jobId && r.status == .failed

/-- The row condition of the retrySpecificUrls UPDATE:
WHERE job_id = jobId AND id IN urlIds AND status = failed. -/
def isRetrySpecificTarget (jobId : String) (urlIds : List String) (r : UrlRow) : Bool :=
  r.job_id == jobId && urlIds.contains r.id && r.status == .failed

/-- The second statement of both retry functions:
UPDATE jobs SET status = processing WHERE id = jobId AND status IN
(completed, failed); the counters and progress column are untouched. -/
def resetTerminalJobToProcessing (jobId : String) (job : Option JobRow) : Option JobRow :=
  job.map fun j =>
    if j.id = jobId ∧ (j.status = .completed ∨ j.status = .failed) then
      { j with status := .processing }
    else j

/-- retryFailedUrls (database.ts): reset every failed row of the job to
pending with the error cleared, flip a terminal job back to processing,
and return the number of rows the UPDATE touched. -/
def retryFailedUrls (jobId : String) (job : Option JobRow) (urls : List UrlRow) :
    Option JobRow × List UrlRow × Nat :=
  let urls' := urls.map fun r =>
    if isRetryAllTarget jobId r then { r with status := .pending, error := none } else r
  (resetTerminalJobToProcessing jobId job, urls', (urls.filter (isRetryAllTarget jobId)).length)

/-- retrySpecificUrls (database.ts): like retryFailedUrls but restricted to
the supplied url ids. The source interpolates the ids into an IN clause,
which is only well-formed SQL for a non-empty id list; callers guard this. -/
def retrySpecificUrls (jobId : String) (job : Option JobRow) (urls : List UrlRow)
    (urlIds : List String) : Option JobRow × List UrlRow × Nat :=
  let urls' := urls.map fun r =>
    if isRetrySpecificTarget jobId urlIds r then { r with status := .pending, error := none } else r
  (resetTerminalJobToProcessing jobId job, urls',
    (urls.filter (isRetrySpecificTarget jobId urlIds)).length)

/-! The queue service (queue.ts) and the job routes (routes/jobs.ts) as a
state machine. A single worker is modelled; it processes one chunk at a
time, and the claims only need one worker interleaved with the control
operations. -/

/-- The worker mid-chunk: the held (active) message, the urls still to
process, and the local counters of the chunk loop. -/
structure WorkerState where
  msg : ChunkMsg
  remaining : List UrlRef
  processedCount : Nat
  failedCount : Nat
deriving Repr

/-- Whole-system state: the job row (none once deleted or never created),
the urls table, the waiting queue, the worker, and a bookkeeping list of
every queue-message id ever enqueued (observational only; no operation
reads it). -/
structure EngineState where
  job : Option JobRow
  urls : List UrlRow
  queue : List ChunkMsg
  worker : Option WorkerState
  history : List String
deriving Repr

/-- getJob (database.ts): the SELECT by id against the single modelled row. -/
def getJob (s : EngineState) (jobId : String) : Option JobRow :=
  s.job.bind fun j => if j.id = jobId then some j else none

/-- csvProcessingQueue.add for a batch of messages, recording their ids in
the bookkeeping history. -/
def enqueueChunks (s : EngineState) (msgs : List ChunkMsg) : EngineState :=
  { s with queue := s.queue ++ msgs, history := s.history ++ msgs.map ChunkMsg.queueJobId }

/-- The body of the worker loop for one url (queue.ts, csvProcessingWorker):
mark the url processing, call generateOpenerWithRetry (its outcome is the
argument res), then mark the url completed with the opener and retry
count 0, or failed with the error message and retry count 1. Returns the
updated table and whether the url counted as processed. -/
def workerHandleUrl (urls : List UrlRow) (u : UrlRef) (res : Except String String) :
    List UrlRow × Bool :=
  let urls1 := updateUrlStatus urls u.id .processing none none none
  match res with
  | .ok opener => (updateUrlStatus urls1 u.id .completed (some opener) none (some 0), true)
  | .error msg => (updateUrlStatus urls1 u.id .failed none (some msg) (some 1), false)

/-- The worker takes the next waiting chunk. The initial stopped check of
the worker callback is made here: a message already marked stopped is
completed immediately without touching any url. -/
def opDequeue (s : EngineState) : EngineState :=
  match s.worker, s.queue with
  | none, m :: rest =>
      if m.stopped then { s with queue := rest }
      else
        { s with
          queue := rest
          worker := some { msg := m, remaining := m.urls, processedCount := 0, failedCount := 0 } }
  | _, _ => s

/-- One round of the per-url loop: re-read the job (break when it is gone
or stopped), re-check the cooperative-stop flag on the message (break),
otherwise process the head url with outcome res and bump the local
counter. A break empties the remaining list; the post-loop update then
runs as opWorkerFinish. -/
def opWorkerItem (s : EngineState) (res : Except String String) : EngineState :=
  match s.worker with
  | none => s
  | some w =>
      match w.remaining with
      | [] => s
      | u :: us =>
          match getJob s w.msg.jobId with
          | none => { s with worker := some { w with remaining := [] } }
          | some j =>
              if j.status = .stopped then
                { s with worker := some { w with remaining := [] } }
              else if w.msg.stopped then
                { s with worker := some { w with remaining := [] } }
              else
                let out := workerHandleUrl s.urls u res
                if out.2 then
                  { s with
                    urls := out.1
                    worker := some { w with remaining := us, processedCount := w.processedCount + 1 } }
                else
                  { s with
                    urls := out.1
                    worker := some { w with remaining := us, failedCount := w.failedCount + 1 } }

/-- The post-loop update of the worker callback: re-read the job; if it was
stopped meanwhile, return without touching the counters; otherwise add the
chunk deltas, write them with status processing, and when the new counters
reach total_rows mark the job completed. -/
def opWorkerFinish (s : EngineState) : EngineState :=
  match s.worker with
  | none => s
  | some w =>
      if w.remaining = [] then
        match getJob s w.msg.jobId with
        | none => { s with worker := none }
        | some j =>
            if j.status = .stopped then { s with worker := none }
            else
              let newProcessedRows := j.processed_rows + w.processedCount
              let newFailedRows := j.failed_rows + w.failedCount
              let j1 := updateJobStatus j .processing (some newProcessedRows) (some newFailedRows)
              let j2 :=
                if j1.total_rows ≤ newProcessedRows + newFailedRows then
                  updateJobStatus j1 .completed none none
                else j1
              { s with job := some j2, worker := none }
      else s

/-- Queue sweep shared by stopJob, cleanupJob and the force-removal pass of
resumeJob: waiting chunks of the job are removed; the chunk held by the
worker is locked, so its removal fails and the fallback updateData marks
it stopped. -/
def removeJobChunks (s : EngineState) (jobId : String) : EngineState :=
  { s with
    queue := s.queue.filter fun m => m.jobId ≠ jobId
    worker := s.worker.map fun w =>
      if w.msg.jobId = jobId then { w with msg := { w.msg with stopped := true } } else w }

/-- stopJob (queue.ts): sweep the chunks of the job, then reconcile the
job counters from the urls table (getJobProgress), persist them
(updateJobProgress) and set the status to stopped. The source returns
false only when a call throws, which the embedding has no notion of. -/
def stopJob (s : EngineState) (jobId : String) : EngineState × Bool :=
  let s1 := removeJobChunks s jobId
  match getJob s1 jobId with
  | some j =>
      let prog := getJobProgress j s1.urls
      let j1 := updateJobProgress j prog.processed prog.failed
      let j2 := updateJobStatus j1 .stopped none none
      ({ s1 with job := some j2 }, true)
  | none =>
      (s1, true)

/-- Responses of the stop route. -/
inductive StopResponse
  | notFound
  | cannotStopCompleted
  | alreadyStopped
  | internalError
  | ok
deriving DecidableEq, Repr

/-- The stop route (routes/jobs.ts): 404 when the job is missing, 400 for a
completed or an already stopped job, otherwise stopJob. -/
def stopRoute (s : EngineState) (jobId : String) : EngineState × StopResponse :=
  match getJob s jobId with
  | none => (s, .notFound)
  | some j =>
      if j.status = .completed then (s, .cannotStopCompleted)
      else if j.status = .stopped then (s, .alreadyStopped)
      else
        let out := stopJob s jobId
        (out.1, if out.2 then .ok else .internalError)

/-- resumeJob (queue.ts): only a stopped job resumes; cleanupJob and the
force-removal pass sweep the chunks of the job; the urls table is re-read
and the pending and failed rows selected; with nothing left the job is
marked completed, otherwise the status becomes processing, the counters
are refreshed from the completed and failed rows, and the selected urls
are re-partitioned through addChunkedJobs with the default chunk size. -/
def resumeJob (s : EngineState) (jobId : String) : EngineState × Bool :=
  match getJob s jobId with
  | none => (s, false)
  | some j =>
      if j.status ≠ .stopped then (s, false)
      else
        let s1 := removeJobChunks s jobId
        let remainingUrls := s1.urls.filter fun r => r.job_id == jobId
        let pendingUrls := remainingUrls.filter fun r =>
          r.status == .pending || r.status == .failed
        let completedUrls := remainingUrls.filter fun r => r.status == .completed
        let failedUrls := remainingUrls.filter fun r => r.status == .failed
        if pendingUrls = [] then
          ({ s1 with job := some (updateJobStatus j .completed none none) }, true)
        else
          let j1 := updateJobStatus j .processing none none
          let j2 := updateJobProgress j1 completedUrls.length failedUrls.length
          let msgs := addChunkedJobs jobId
            (pendingUrls.map fun r => { id := r.id, url := r.url }) j.content_type 500
          (enqueueChunks { s1 with job := some j2 } msgs, true)

/-- Responses of the resume route. -/
inductive ResumeResponse
  | notFound
  | invalidState
  | internalError
  | ok
deriving DecidableEq, Repr

/-- The resume route (routes/jobs.ts): 404 when the job is missing, 400
unless it is stopped, otherwise resumeJob. -/
def resumeRoute (s : EngineState) (jobId : String) : EngineState × ResumeResponse :=
  match getJob s jobId with
  | none => (s, .notFound)
  | some j =>
      if j.status ≠ .stopped then (s, .invalidState)
      else
        let out := resumeJob s jobId
        (out.1, if out.2 then .ok else .internalError)

/-- Responses of the retry route. -/
inductive RetryResponse
  | notFound
  | retried (count : Nat)
deriving DecidableEq, Repr

/-- The retry route (routes/jobs.ts): 404 when the job is missing;
with a non-empty urlIds array it runs retrySpecificUrls, otherwise
retryFailedUrls; the response carries the number of rows reset. The route
enqueues nothing. -/
def retryRoute (s : EngineState) (jobId : String) (urlIds : Option (List String)) :
    EngineState × RetryResponse :=
  match getJob s jobId with
  | none => (s, .notFound)
  | some _ =>
      match urlIds with
      | some ids =>
          if ids.length > 0 then
            let out := retrySpecificUrls jobId s.job s.urls ids
            ({ s with job := out.1, urls := out.2.1 }, .retried out.2.2)
          else
            let out := retryFailedUrls jobId s.job s.urls
            ({ s with job := out.1, urls := out.2.1 }, .retried out.2.2)
      | none =>
          let out := retryFailedUrls jobId s.job s.urls
          ({ s with job := out.1, urls := out.2.1 }, .retried out.2.2)

/-- startProcessing (uploadController.ts, small-job path): set the content
type, reset the counters with status processing, reset every url of the
job to pending (resetUrlStatusesForJob is not part of this tree; modelled
from the spec: Start resets all item statuses to pending), and enqueue the
chunk set of all urls of the job. -/
def startProcessing (s : EngineState) (jobId : String) (ct : ContentType) : EngineState :=
  match getJob s jobId with
  | none => s
  | some j =>
      let j0 := { j with content_type := ct }
      let totalUrls := (s.urls.filter fun r => r.job_id == jobId).length
      if totalUrls = 0 then { s with job := some j0 }
      else
        let j1 := updateJobStatus j0 .processing (some 0) (some 0)
        let urls' := s.urls.map fun r =>
          if r.job_id = jobId then { r with status := UrlStatus.pending } else r
        let urlRecords := (urls'.filter fun r => r.job_id == jobId).map
          fun r => ({ id := r.id, url := r.url } : UrlRef)
        enqueueChunks { s with job := some j1, urls := urls' }
          (addChunkedJobs jobId urlRecords ct 500)

/-- One operation of the engine, as observed through the API and the
worker; outcomes of the external generator ride on the worker items. -/
inductive EngineOp
  | start (jobId : String) (ct : ContentType)
  | dequeue
  | workerItem (res : Except String String)
  | workerFinish
  | stop (jobId : String)
  | resume (jobId : String)
  | retry (jobId : String) (urlIds : Option (List String))

/-- Apply one operation to the state. -/
def applyOp (s : EngineState) : EngineOp → EngineState
  | .start jobId ct => startProcessing s jobId ct
  | .dequeue => opDequeue s
  | .workerItem res => opWorkerItem s res
  | .workerFinish => opWorkerFinish s
  | .stop jobId => (stopRoute s jobId).1
  | .resume jobId => (resumeRoute s jobId).1
  | .retry jobId urlIds => (retryRoute s jobId urlIds).1

/-- Run a list of operations left to right. -/
def runTrace (s : EngineState) : List EngineOp → EngineState
  | [] => s
  | op :: ops => runTrace (applyOp s op) ops

/-! Concrete fixtures used to evaluate the embedding at specific inputs. -/

/-- A jobs-table row of the fixture job "J". -/
def mkJobRow (st : JobStatus) (total p f : Nat) : JobRow :=
  { id := "J", status := st, total_rows := total, processed_rows := p,
    failed_rows := f, progress := 0, content_type := .company }

/-- A urls-table row of the fixture job "J". -/
def mkUrlRow (uid : String) (st : UrlStatus) (err : Option String) (rc : Nat) : UrlRow :=
  { id := uid, job_id := "J", url := "http://" ++ uid, status := st,
    opener := none, error := err, retry_count := rc }

/-- A freshly created two-item job, before Start. -/
def c2Init : EngineState :=
  { job := some (mkJobRow .pending 2 0 0)
    urls := [mkUrlRow "a" .pending none 0, mkUrlRow "b" .pending none 0]
    queue := []
    worker := none
    history := [] }

/-- Start the job; the worker takes the chunk and fails on url a; Stop is
issued mid-chunk (reconciling failed_rows to 1); the worker observes the
stop and finishes without touching the counters; Resume re-enqueues the
failed url a together with the pending url b; the worker then fails a
again and completes b. -/
def c2Ops : List EngineOp :=
  [ .start "J" .company
  , .dequeue
  , .workerItem (.error "boom")
  , .stop "J"
  , .workerItem (.ok "x")
  , .workerFinish
  , .resume "J"
  , .dequeue
  , .workerItem (.error "boom again")
  , .workerItem (.ok "hello")
  , .workerFinish ]

/-- A completed one-item job whose single url failed. -/
def c3State : EngineState :=
  { job := some (mkJobRow .completed 1 0 1)
    urls := [mkUrlRow "b" .failed (some "boom") 1]
    queue := []
    worker := none
    history := ["J-chunk-1"] }

/-- A stopped two-item job: url a already completed, url b still pending. -/
def c4State : EngineState :=
  { job := some (mkJobRow .stopped 2 1 0)
    urls := [mkUrlRow "a" .completed none 0, mkUrlRow "b" .pending none 0]
    queue := []
    worker := none
    history := ["J-chunk-1"] }

/-- A one-item job whose row was never moved past pending. -/
def c5Job : JobRow := mkJobRow .processing 1 0 0

/-- A pending one-item job, used against the stop route. -/
def c6State : EngineState :=
  { job := some (mkJobRow .pending 1 0 0)
    urls := [mkUrlRow "a" .pending none 0]
    queue := []
    worker := none
    history := [] }

/-- A one-item job, about to be started, stopped and resumed. -/
def c9Init : EngineState :=
  { job := some (mkJobRow .pending 1 0 0)
    urls := [mkUrlRow "a" .pending none 0]
    queue := []
    worker := none
    history := [] }

/-- A generator whose every call throws the same transient error. -/
def genAlwaysBoom : Nat → Except String String := fun _ => .error "boom"

/-- A generator whose first call throws a billing (permanent) error. -/
def genBilling : Nat → Except String String := fun _ => .error "Failed to generate opener: billing hard limit reached"

/-- The route condition deciding which UPDATE the retry route runs: a
non-empty urlIds array selects retrySpecificUrls, anything else selects
retryFailedUrls. -/
def retryRouteTarget (jobId : String) (urlIds : Option (List String)) (r : UrlRow) : Bool :=
  match urlIds with
  | some ids => if ids.length > 0 then isRetrySpecificTarget jobId ids r else isRetryAllTarget jobId r
  | none => isRetryAllTarget jobId r

/-- The progress formula implemented by updateJobStatus, written out as in
the amended claim: one hundred times the supplied processed count (falling
back to the stored count when the supplied one is absent or zero) over the
total, zero for an empty job; the failed count never contributes. -/
def amendedProgressPct (storedProcessed total : Nat) (supplied : Option Nat) : ℚ :=
  if total = 0 then 0
  else
    match supplied with
    | some p => if p = 0 then 100 * (storedProcessed : ℚ) / total else 100 * (p : ℚ) / total
    | none => 100 * (storedProcessed : ℚ) / total

/-! Helper lemmas about the chunk partitioner. -/

theorem ceil_div_step (n c : Nat) (hc : 0 < c) (hn : 1 ≤ n) :
    (n - c + c - 1) / c + 1 = (n + c - 1) / c := by
  rcases Nat.le_total n c with h | h
  · have h0 : n - c = 0 := by omega
    have h1 : (0 + c - 1) / c = 0 := Nat.div_eq_of_lt (by omega)
    have h2 : n + c - 1 = (n - 1) + c := by omega
    rw [h0, h1, h2, Nat.add_div_right _ hc, Nat.div_eq_of_lt (by omega)]
  · have h1 : n - c + c - 1 = n - 1 := by omega
    have h2 : n + c - 1 = (n - 1) + c := by omega
    rw [h1, h2, Nat.add_div_right _ hc]

theorem chunksGo_flatten {α : Type} (c : Nat) (hc : 0 < c) :
    ∀ (fuel : Nat) (l : List α), l.length ≤ fuel → (chunksGo c fuel l).flatten = l := by
  intro fuel
  induction fuel with
  | zero =>
      intro l hl
      have : l = [] := List.eq_nil_of_length_eq_zero (Nat.le_zero.1 hl)
      subst this
      rfl
  | succ n ih =>
      intro l hl
      cases l with
      | nil => rfl
      | cons u us =>
          have hdrop : ((u :: us).drop c).length ≤ n := by
            rw [List.length_drop]
            simp only [List.length_cons] at hl ⊢
            omega
          simp only [chunksGo, List.flatten_cons, ih _ hdrop, List.take_append_drop]

theorem chunksGo_length {α : Type} (c : Nat) (hc : 0 < c) :
    ∀ (fuel : Nat) (l : List α), l.length ≤ fuel →
      (chunksGo c fuel l).length = (l.length + c - 1) / c := by
  intro fuel
  induction fuel with
  | zero =>
      intro l hl
      have : l = [] := List.eq_nil_of_length_eq_zero (Nat.le_zero.1 hl)
      subst this
      simp only [chunksGo, List.length_nil]
      exact (Nat.div_eq_of_lt (by omega)).symm
  | succ n ih =>
      intro l hl
      cases l with
      | nil =>
          simp only [chunksGo, List.length_nil]
          exact (Nat.div_eq_of_lt (by omega)).symm
      | cons u us =>
          have hdrop : ((u :: us).drop c).length ≤ n := by
            rw [List.length_drop]
            simp only [List.length_cons] at hl ⊢
            omega
          have hlen : ((u :: us).drop c).length = (u :: us).length - c := List.length_drop ..
          simp only [chunksGo, List.length_cons, ih _ hdrop, hlen]
          exact ceil_div_step (u :: us).length c hc (by simp)

theorem chunksGo_map_length {α : Type} (c : Nat) (hc : 0 < c) :
    ∀ (fuel : Nat) (l : List α), l.length ≤ fuel →
      (chunksGo c fuel l).map List.length
        = (List.range (chunksGo c fuel l).length).map (fun i => min c (l.length - i * c)) := by
  intro fuel
  induction fuel with
  | zero =>
      intro l hl
      have : l = [] := List.eq_nil_of_length_eq_zero (Nat.le_zero.1 hl)
      subst this
      rfl
  | succ n ih =>
      intro l hl
      cases l with
      | nil => rfl
      | cons u us =>
          have hdrop : ((u :: us).drop c).length ≤ n := by
            rw [List.length_drop]
            simp only [List.length_cons] at hl ⊢
            omega
          have hlen : ((u :: us).drop c).length = (u :: us).length - c := List.length_drop ..
          have hpt : ∀ i : Nat, us.length + 1 - c - i * c = us.length + 1 - (i + 1) * c := by
            intro i
            rw [Nat.sub_sub, Nat.succ_mul, Nat.add_comm (i * c) c]
          simp only [chunksGo, List.map_cons, List.length_cons, ih _ hdrop, hlen,
            List.range_succ_eq_map, List.map_map]
          congr 1
          · simp [List.length_take]
          · apply List.map_congr_left
            intro a _
            simp only [Function.comp_apply, Nat.succ_eq_add_one, hpt a]

theorem buildChunkMsgs_map_urls (jobId : String) (ct : ContentType) :
    ∀ (seq : Nat) (cs : List (List UrlRef)),
      (buildChunkMsgs jobId ct seq cs).map ChunkMsg.urls = cs := by
  intro seq cs
  induction cs generalizing seq with
  | nil => rfl
  | cons c cs ih => simp [buildChunkMsgs, ih]

theorem buildChunkMsgs_length (jobId : String) (ct : ContentType) (seq : Nat)
    (cs : List (List UrlRef)) : (buildChunkMsgs jobId ct seq cs).length = cs.length := by
  have := congrArg List.length (buildChunkMsgs_map_urls jobId ct seq cs)
  simpa using this

theorem buildChunkMsgs_map_chunk (jobId : String) (ct : ContentType) :
    ∀ (seq : Nat) (cs : List (List UrlRef)),
      (buildChunkMsgs jobId ct seq cs).map ChunkMsg.chunk = List.range' seq cs.length := by
  intro seq cs
  induction cs generalizing seq with
  | nil => rfl
  | cons c cs ih => simp [buildChunkMsgs, List.range'_succ, ih]

theorem buildChunkMsgs_map_queueJobId (jobId : String) (ct : ContentType) :
    ∀ (seq : Nat) (cs : List (List UrlRef)),
      (buildChunkMsgs jobId ct seq cs).map ChunkMsg.queueJobId
        = (List.range' seq cs.length).map (chunkQueueId jobId) := by
  intro seq cs
  induction cs generalizing seq with
  | nil => rfl
  | cons c cs ih => simp [buildChunkMsgs, List.range'_succ, ih]

/-! Helper lemmas about the retry loop and the per-url worker body. -/

theorem generateOpenerWithRetryGo_all_transient
    (gen : Nat → Except String String) (e : Nat → String) (maxRetries : Nat)
    (hgen : ∀ k, 1 ≤ k → k ≤ maxRetries → gen k = .error (e k))
    (htr : ∀ k, 1 ≤ k → k ≤ maxRetries → isPermanentError (e k) = false) :
    ∀ (fuel a : Nat) (lastErr : Option String), 1 ≤ a → a + fuel = maxRetries + 1 → 1 ≤ fuel →
      generateOpenerWithRetryGo gen maxRetries fuel a lastErr
        = { result := .error (e maxRetries), calls := fuel,
            delays := (List.range' a (fuel - 1)).map retryDelayMs } := by
  intro fuel
  induction fuel with
  | zero => intro a lastErr _ _ hf; omega
  | succ f ih =>
      intro a lastErr ha hsum _
      have hale : a ≤ maxRetries := by omega
      have hgena : gen a = .error (e a) := hgen a ha hale
      have htra : isPermanentError (e a) = false := htr a ha hale
      rcases Nat.eq_zero_or_pos f with hf | hf
      · subst hf
        have ham : a = maxRetries := by omega
        subst ham
        simp [generateOpenerWithRetryGo, hgena, htra]
      · have hrest := ih (a + 1) (some (e a)) (by omega) (by omega) hf
        have haltm : a < maxRetries := by omega
        simp only [generateOpenerWithRetryGo, hgena, htra, Bool.false_eq_true, if_false,
          if_pos haltm, hrest]
        obtain ⟨g, rfl⟩ : ∃ g, f = g + 1 := ⟨f - 1, by omega⟩
        have hd : [retryDelayMs a] ++ (List.range' (a + 1) g).map retryDelayMs
            = (List.range' a (g + 1)).map retryDelayMs := by
          rw [List.range'_succ]
          simp
        simp only [Nat.add_sub_cancel, hd]

theorem generateOpenerWithRetry_all_transient
    (gen : Nat → Except String String) (e : Nat → String) (maxRetries : Nat)
    (hm : 1 ≤ maxRetries)
    (hgen : ∀ k, 1 ≤ k → k ≤ maxRetries → gen k = .error (e k))
    (htr : ∀ k, 1 ≤ k → k ≤ maxRetries → isPermanentError (e k) = false) :
    generateOpenerWithRetry gen maxRetries
      = { result := .error (e maxRetries), calls := maxRetries,
          delays := (List.range' 1 (maxRetries - 1)).map retryDelayMs } :=
  generateOpenerWithRetryGo_all_transient gen e maxRetries hgen htr maxRetries 1 none
    (by omega) (by omega) hm

theorem workerHandleUrl_error_marks_failed (urls : List UrlRow) (u : UrlRef) (msg : String) :
    ∀ r ∈ (workerHandleUrl urls u (.error msg)).1,
      r.id = u.id → r.status = .failed ∧ r.error = some msg ∧ r.retry_count = 1 := by
  intro r hr hid
  simp only [workerHandleUrl, updateUrlStatus, List.map_map, List.mem_map] at hr
  obtain ⟨r0, _, rfl⟩ := hr
  by_cases h : r0.id = u.id
  · simp [h]
  · simp [h] at hid

/-! Helper lemmas about the engine operations. -/

theorem getJob_eq_some (s : EngineState) (jobId : String) (j : JobRow)
    (hj : getJob s jobId = some j) : s.job = some j ∧ j.id = jobId := by
  unfold getJob at hj
  cases hs : s.job with
  | none => rw [hs] at hj; simp at hj
  | some j' =>
      rw [hs] at hj
      simp only [Option.some_bind] at hj
      by_cases hid : j'.id = jobId
      · rw [if_pos hid] at hj
        obtain rfl : j' = j := by injection hj
        exact ⟨rfl, hid⟩
      · rw [if_neg hid] at hj
        exact absurd hj (by simp)

theorem resumeJob_of_empty (s : EngineState) (jobId : String) (j : JobRow)
    (hj : getJob s jobId = some j) (hst : j.status = .stopped)
    (hp : ((removeJobChunks s jobId).urls.filter fun r => r.job_id == jobId).filter
        (fun r => r.status == UrlStatus.pending || r.status == UrlStatus.failed) = []) :
    resumeJob s jobId
      = ({ removeJobChunks s jobId with job := some (updateJobStatus j .completed none none) }, true) := by
  unfold resumeJob
  rw [hj]
  dsimp only
  rw [if_neg (show ¬(j.status ≠ JobStatus.stopped) from by simp [hst]), if_pos hp]

theorem resumeJob_of_nonempty (s : EngineState) (jobId : String) (j : JobRow)
    (hj : getJob s jobId = some j) (hst : j.status = .stopped)
    (hp : ((removeJobChunks s jobId).urls.filter fun r => r.job_id == jobId).filter
        (fun r => r.status == UrlStatus.pending || r.status == UrlStatus.failed) ≠ []) :
    resumeJob s jobId
      = (enqueueChunks
          { removeJobChunks s jobId with
            job := some (updateJobProgress (updateJobStatus j .processing none none)
              (((removeJobChunks s jobId).urls.filter fun r => r.job_id == jobId).filter
                (fun r => r.status == UrlStatus.completed)).length
              (((removeJobChunks s jobId).urls.filter fun r => r.job_id == jobId).filter
                (fun r => r.status == UrlStatus.failed)).length) }
          (addChunkedJobs jobId
            ((((removeJobChunks s jobId).urls.filter fun r => r.job_id == jobId).filter
              (fun r => r.status == UrlStatus.pending || r.status == UrlStatus.failed)).map
              fun r => { id := r.id, url := r.url })
            j.content_type 500), true) := by
  unfold resumeJob
  rw [hj]
  dsimp only
  rw [if_neg (show ¬(j.status ≠ JobStatus.stopped) from by simp [hst]), if_neg hp]

theorem resumeRoute_eq_resumeJob (s : EngineState) (jobId : String) (j : JobRow)
    (hj : getJob s jobId = some j) (hst : j.status = .stopped) :
    resumeRoute s jobId
      = ((resumeJob s jobId).1, if (resumeJob s jobId).2 then .ok else .internalError) := by
  unfold resumeRoute
  rw [hj]
  dsimp only
  rw [if_neg (show ¬(j.status ≠ JobStatus.stopped) from by simp [hst])]

/-! The claims. -/

/-- Claim C1: for every input list of item references and every chunk size
C > 0, addChunkedJobs partitions the list into ceil(N/C) chunks, sequenced
1..k, where chunk i (0-based) holds min C (N - i*C) items (so every chunk
holds at most C items and the last holds the remainder); the concatenation
of the chunks is the input list in its original order, and when the input
has no duplicate references the chunk item sets are pairwise disjoint. -/
theorem addChunkedJobs_partition (jobId : String) (urls : List UrlRef) (ct : ContentType)
    (C : Nat) (hC : 0 < C) :
    (addChunkedJobs jobId urls ct C).length = (urls.length + C - 1) / C
    ∧ (addChunkedJobs jobId urls ct C).map ChunkMsg.chunk
        = List.range' 1 (addChunkedJobs jobId urls ct C).length
    ∧ ((addChunkedJobs jobId urls ct C).map fun m => m.urls.length)
        = (List.range (addChunkedJobs jobId urls ct C).length).map
            (fun i => min C (urls.length - i * C))
    ∧ ((addChunkedJobs jobId urls ct C).map ChunkMsg.urls).flatten = urls
    ∧ (urls.Nodup → ((addChunkedJobs jobId urls ct C).map ChunkMsg.urls).Pairwise List.Disjoint) := by
  have hm : (addChunkedJobs jobId urls ct C).map ChunkMsg.urls = splitIntoChunks urls C :=
    buildChunkMsgs_map_urls jobId ct 1 _
  have hlen : (addChunkedJobs jobId urls ct C).length = (splitIntoChunks urls C).length :=
    buildChunkMsgs_length jobId ct 1 _
  have hsplitlen : (splitIntoChunks urls C).length = (urls.length + C - 1) / C :=
    chunksGo_length C hC urls.length urls (Nat.le_refl _)
  have hflat : (splitIntoChunks urls C).flatten = urls :=
    chunksGo_flatten C hC urls.length urls (Nat.le_refl _)
  refine ⟨hlen.trans hsplitlen, ?_, ?_, ?_, ?_⟩
  · rw [hlen]
    exact buildChunkMsgs_map_chunk jobId ct 1 _
  · have hcomp : ((addChunkedJobs jobId urls ct C).map fun m => m.urls.length)
        = ((addChunkedJobs jobId urls ct C).map ChunkMsg.urls).map List.length := by
      rw [List.map_map]
      rfl
    rw [hcomp, hm, hlen]
    exact chunksGo_map_length C hC urls.length urls (Nat.le_refl _)
  · rw [hm]
    exact hflat
  · intro hnd
    have hfn : ((addChunkedJobs jobId urls ct C).map ChunkMsg.urls).flatten.Nodup := by
      rw [hm, hflat]
      exact hnd
    exact (List.nodup_flatten.1 hfn).2

/-- Witness for claim C1 at three items and chunk size two. -/
theorem addChunkedJobs_partition_witness :
    0 < 2
    ∧ ((addChunkedJobs "J" [⟨"a", "ua"⟩, ⟨"b", "ub"⟩, ⟨"c", "uc"⟩] .company 2).length
          = (([⟨"a", "ua"⟩, ⟨"b", "ub"⟩, ⟨"c", "uc"⟩] : List UrlRef).length + 2 - 1) / 2
        ∧ (addChunkedJobs "J" [⟨"a", "ua"⟩, ⟨"b", "ub"⟩, ⟨"c", "uc"⟩] .company 2).map ChunkMsg.chunk
            = List.range' 1 (addChunkedJobs "J" [⟨"a", "ua"⟩, ⟨"b", "ub"⟩, ⟨"c", "uc"⟩] .company 2).length
        ∧ ((addChunkedJobs "J" [⟨"a", "ua"⟩, ⟨"b", "ub"⟩, ⟨"c", "uc"⟩] .company 2).map fun m => m.urls.length)
            = (List.range (addChunkedJobs "J" [⟨"a", "ua"⟩, ⟨"b", "ub"⟩, ⟨"c", "uc"⟩] .company 2).length).map
                (fun i => min 2 (([⟨"a", "ua"⟩, ⟨"b", "ub"⟩, ⟨"c", "uc"⟩] : List UrlRef).length - i * 2))
        ∧ ((addChunkedJobs "J" [⟨"a", "ua"⟩, ⟨"b", "ub"⟩, ⟨"c", "uc"⟩] .company 2).map ChunkMsg.urls).flatten
            = [⟨"a", "ua"⟩, ⟨"b", "ub"⟩, ⟨"c", "uc"⟩]
        ∧ (([⟨"a", "ua"⟩, ⟨"b", "ub"⟩, ⟨"c", "uc"⟩] : List UrlRef).Nodup →
            ((addChunkedJobs "J" [⟨"a", "ua"⟩, ⟨"b", "ub"⟩, ⟨"c", "uc"⟩] .company 2).map ChunkMsg.urls).Pairwise List.Disjoint)) :=
  ⟨by decide, addChunkedJobs_partition "J" [⟨"a", "ua"⟩, ⟨"b", "ub"⟩, ⟨"c", "uc"⟩] .company 2 (by decide)⟩

/-- Claim C5 counterexample: an update that reports one failed row and zero
processed rows on a one-row job persists progress 0, not the
100 * (processed_count + failed_count) / total_items = 100 the claim
states; the failed count never enters the stored percentage. -/
theorem updateJobStatus_progress_ignores_failed :
    (updateJobStatus c5Job .processing (some 0) (some 1)).total_rows = 1
    ∧ (updateJobStatus c5Job .processing (some 0) (some 1)).processed_rows = 0
    ∧ (updateJobStatus c5Job .processing (some 0) (some 1)).failed_rows = 1
    ∧ (updateJobStatus c5Job .processing (some 0) (some 1)).progress = 0
    ∧ (100 : ℚ) * (((updateJobStatus c5Job .processing (some 0) (some 1)).processed_rows : ℚ)
          + ((updateJobStatus c5Job .processing (some 0) (some 1)).failed_rows : ℚ))
        / ((updateJobStatus c5Job .processing (some 0) (some 1)).total_rows : ℚ) = 100
    ∧ (updateJobStatus c5Job .processing (some 0) (some 1)).progress
        ≠ (100 : ℚ) * (((updateJobStatus c5Job .processing (some 0) (some 1)).processed_rows : ℚ)
            + ((updateJobStatus c5Job .processing (some 0) (some 1)).failed_rows : ℚ))
          / ((updateJobStatus c5Job .processing (some 0) (some 1)).total_rows : ℚ) := by
  refine ⟨rfl, rfl, rfl, ?_, ?_, ?_⟩
  · show (if 0 < c5Job.total_rows then ((progressBase c5Job (some 0) : ℚ) / (c5Job.total_rows : ℚ)) * 100 else 0) = 0
    norm_num [progressBase, c5Job, mkJobRow]
  · show (100 : ℚ) * (((0 : Nat) : ℚ) + ((1 : Nat) : ℚ)) / ((1 : Nat) : ℚ) = 100
    norm_num
  · norm_num [updateJobStatus, progressBase, c5Job, mkJobRow]

/-- Claim C5 (amended): whenever updateJobStatus writes the Job row, the
persisted progress percentage equals 100 * p / total_items where p is the
supplied processed count when it is present and nonzero and the previously
stored processed count otherwise, and equals 0 when total_items is 0; the
failed count does not contribute. -/
theorem updateJobStatus_progress_amended (j : JobRow) (st : JobStatus)
    (processedRows failedRows : Option Nat) :
    (updateJobStatus j st processedRows failedRows).progress
      = amendedProgressPct j.processed_rows j.total_rows processedRows := by
  unfold updateJobStatus amendedProgressPct progressBase
  rcases Nat.eq_zero_or_pos j.total_rows with h0 | hpos
  · rw [h0]
    simp
  · have hne : j.total_rows ≠ 0 := by omega
    rw [if_pos hpos, if_neg hne]
    cases processedRows with
    | none =>
        dsimp only
        ring
    | some p =>
        dsimp only
        by_cases hp : p = 0
        · rw [if_pos hp, if_pos hp]
          ring
        · rw [if_neg hp, if_neg hp]
          ring

/-- Claim C7 counterexample: with maxRetries = 3 and every attempt failing
transiently, the loop sleeps 2000 ms then 4000 ms (base * 2^attempt), not
the base * 2^(attempt-1) schedule of 1000 ms then 2000 ms the claim
states. -/
theorem retry_backoff_formula_differs :
    (generateOpenerWithRetry genAlwaysBoom 3).delays = [2000, 4000]
    ∧ (List.range' 1 2).map (fun a => 1000 * 2 ^ (a - 1)) = [1000, 2000]
    ∧ (generateOpenerWithRetry genAlwaysBoom 3).delays
        ≠ (List.range' 1 2).map (fun a => 1000 * 2 ^ (a - 1)) := by
  refine ⟨rfl, rfl, ?_⟩
  decide

/-- Claim C7 (amended): for an item whose every attempt fails with a
transient error, the loop makes exactly maxRetries generateOpener calls,
sleeps 1000 * 2^attempt milliseconds after each attempt but the last
(attempts 1..maxRetries-1), throws the error of the last attempt, and the
worker then marks the item failed with that error and retry_count 1. -/
theorem retry_exhaustion_marks_failed (gen : Nat → Except String String) (e : Nat → String)
    (maxRetries : Nat) (hm : 1 ≤ maxRetries)
    (hgen : ∀ k, 1 ≤ k → k ≤ maxRetries → gen k = .error (e k))
    (htr : ∀ k, 1 ≤ k → k ≤ maxRetries → isPermanentError (e k) = false)
    (urls : List UrlRow) (u : UrlRef) :
    (generateOpenerWithRetry gen maxRetries).calls = maxRetries
    ∧ (generateOpenerWithRetry gen maxRetries).result = .error (e maxRetries)
    ∧ (generateOpenerWithRetry gen maxRetries).delays
        = (List.range' 1 (maxRetries - 1)).map (fun a => 2 ^ a * 1000)
    ∧ (∀ r ∈ (workerHandleUrl urls u (generateOpenerWithRetry gen maxRetries).result).1,
        r.id = u.id → r.status = .failed ∧ r.error = some (e maxRetries) ∧ r.retry_count = 1) := by
  have h := generateOpenerWithRetry_all_transient gen e maxRetries hm hgen htr
  rw [h]
  exact ⟨rfl, rfl, rfl, workerHandleUrl_error_marks_failed urls u (e maxRetries)⟩

/-- Witness for claim C7: three transient attempts on the fixture row. -/
theorem retry_exhaustion_marks_failed_witness :
    1 ≤ 3
    ∧ (∀ k, 1 ≤ k → k ≤ 3 → genAlwaysBoom k = .error ((fun _ => "boom") k))
    ∧ (∀ k, 1 ≤ k → k ≤ 3 → isPermanentError ((fun _ => "boom") k) = false)
    ∧ ((generateOpenerWithRetry genAlwaysBoom 3).calls = 3
        ∧ (generateOpenerWithRetry genAlwaysBoom 3).result = .error ((fun _ => "boom") 3)
        ∧ (generateOpenerWithRetry genAlwaysBoom 3).delays
            = (List.range' 1 (3 - 1)).map (fun a => 2 ^ a * 1000)
        ∧ (∀ r ∈ (workerHandleUrl [mkUrlRow "a" .pending none 0] ⟨"a", "http://a"⟩
              (generateOpenerWithRetry genAlwaysBoom 3).result).1,
            r.id = (⟨"a", "http://a"⟩ : UrlRef).id →
              r.status = .failed ∧ r.error = some ((fun _ => "boom") 3) ∧ r.retry_count = 1)) :=
  ⟨by decide, fun _ _ _ => rfl,
    fun _ _ _ => (by decide : isPermanentError "boom" = false),
    retry_exhaustion_marks_failed genAlwaysBoom (fun _ => "boom") 3 (by decide)
      (fun _ _ _ => rfl) (fun _ _ _ => (by decide : isPermanentError "boom" = false))
      [mkUrlRow "a" .pending none 0] ⟨"a", "http://a"⟩⟩

/-- Claim C8: an item whose first attempt throws a permanent-class error
(invalid API key, insufficient quota or billing) is not retried: the loop
makes exactly one generateOpener call, sleeps never, rethrows that error,
and the worker marks the item failed with retry_count 1. -/
theorem permanent_error_short_circuit (gen : Nat → Except String String) (e : String)
    (maxRetries : Nat) (hm : 1 ≤ maxRetries)
    (h1 : gen 1 = .error e) (hperm : isPermanentError e = true)
    (urls : List UrlRow) (u : UrlRef) :
    generateOpenerWithRetry gen maxRetries
        = { result := .error e, calls := 1, delays := [] }
    ∧ (∀ r ∈ (workerHandleUrl urls u (.error e)).1,
        r.id = u.id → r.status = .failed ∧ r.error = some e ∧ r.retry_count = 1) := by
  obtain ⟨m, rfl⟩ : ∃ m, maxRetries = m + 1 := ⟨maxRetries - 1, by omega⟩
  constructor
  · unfold generateOpenerWithRetry
    simp [generateOpenerWithRetryGo, h1, hperm]
  · exact workerHandleUrl_error_marks_failed urls u e

/-- Witness for claim C8: a billing error on the first attempt. -/
theorem permanent_error_short_circuit_witness :
    1 ≤ 3
    ∧ genBilling 1 = .error "Failed to generate opener: billing hard limit reached"
    ∧ isPermanentError "Failed to generate opener: billing hard limit reached" = true
    ∧ (generateOpenerWithRetry genBilling 3
        = { result := .error "Failed to generate opener: billing hard limit reached",
            calls := 1, delays := [] }
      ∧ (∀ r ∈ (workerHandleUrl [mkUrlRow "a" .pending none 0] ⟨"a", "http://a"⟩
            (.error "Failed to generate opener: billing hard limit reached")).1,
          r.id = (⟨"a", "http://a"⟩ : UrlRef).id →
            r.status = .failed
            ∧ r.error = some "Failed to generate opener: billing hard limit reached"
            ∧ r.retry_count = 1)) :=
  ⟨by decide, rfl, by decide,
    permanent_error_short_circuit genBilling
      "Failed to generate opener: billing hard limit reached" 3 (by decide) rfl (by decide)
      [mkUrlRow "a" .pending none 0] ⟨"a", "http://a"⟩⟩

/-- Claim C2 (failing run): on the two-item fixture job, after Start, a
chunk in which url a fails, a mid-chunk Stop (which reconciles
failed_rows to 1 from the urls table), a Resume (which re-enqueues the
already-counted failed url a alongside the pending url b), and a second
chunk in which a fails again and b completes, the worker adds its chunk
deltas on top of the reconciled counters and the Job row ends with
processed_rows + failed_rows = 3 on total_rows = 2, violating the
invariant processed_count + failed_count ≤ total_items. -/
theorem job_counts_exceed_total_after_resume :
    ∃ j : JobRow, (runTrace c2Init c2Ops).job = some j
      ∧ j.total_rows = 2 ∧ j.processed_rows = 1 ∧ j.failed_rows = 2
      ∧ j.total_rows < j.processed_rows + j.failed_rows :=
  ⟨_, rfl, rfl, rfl, rfl, by decide⟩

/-- Claim C3 counterexample: retrying the failed url of the completed
fixture job resets the item to pending with its error cleared and flips
the job back to processing, but enqueues nothing: the queue stays empty
and the enqueue history is untouched, so no fresh chunk set covering the
reset item reaches the queue. -/
theorem retry_enqueues_no_chunks :
    (retryRoute c3State "J" none).2 = .retried 1
    ∧ ((retryRoute c3State "J" none).1.urls.map fun r => (r.status, r.error))
        = [(UrlStatus.pending, none)]
    ∧ ((retryRoute c3State "J" none).1.job.map JobRow.status) = some JobStatus.processing
    ∧ (retryRoute c3State "J" none).1.queue = []
    ∧ (retryRoute c3State "J" none).1.history = c3State.history :=
  ⟨rfl, rfl, rfl, rfl, rfl⟩

/-- Claim C3 (amended): RetryFailed resets the targeted items (all failed
items of the job, or the caller-supplied subset of them) to pending with
their error cleared, returns the number of rows reset, and, when the Job
is in a terminal state (completed or failed), transitions it back to
processing; however no chunk set is enqueued by the retry operation: the
queue, the enqueue history and the worker are left untouched. -/
theorem retryRoute_resets_without_enqueue (s : EngineState) (jobId : String) (j : JobRow)
    (urlIds : Option (List String)) (hj : getJob s jobId = some j) :
    (retryRoute s jobId urlIds).1.queue = s.queue
    ∧ (retryRoute s jobId urlIds).1.history = s.history
    ∧ (retryRoute s jobId urlIds).1.worker = s.worker
    ∧ (retryRoute s jobId urlIds).1.urls
        = s.urls.map (fun r => if retryRouteTarget jobId urlIds r
            then { r with status := UrlStatus.pending, error := none } else r)
    ∧ (retryRoute s jobId urlIds).2
        = .retried (s.urls.filter (retryRouteTarget jobId urlIds)).length
    ∧ (retryRoute s jobId urlIds).1.job
        = some (if j.status = .completed ∨ j.status = .failed
            then { j with status := JobStatus.processing } else j) := by
  obtain ⟨hsb, hid⟩ := getJob_eq_some s jobId j hj
  have hjob : resetTerminalJobToProcessing jobId s.job
      = some (if j.status = .completed ∨ j.status = .failed
          then { j with status := JobStatus.processing } else j) := by
    rw [hsb]
    simp [resetTerminalJobToProcessing, hid]
  unfold retryRoute
  rw [hj]
  cases urlIds with
  | none => exact ⟨rfl, rfl, rfl, rfl, rfl, hjob⟩
  | some ids =>
      dsimp only
      by_cases hlen : ids.length > 0
      · have htgt : retryRouteTarget jobId (some ids) = isRetrySpecificTarget jobId ids := by
          funext r
          simp only [retryRouteTarget]
          rw [if_pos hlen]
        rw [if_pos hlen, htgt]
        exact ⟨rfl, rfl, rfl, rfl, rfl, hjob⟩
      · have htgt : retryRouteTarget jobId (some ids) = isRetryAllTarget jobId := by
          funext r
          simp only [retryRouteTarget]
          rw [if_neg hlen]
        rw [if_neg hlen, htgt]
        exact ⟨rfl, rfl, rfl, rfl, rfl, hjob⟩

/-- Witness for claim C3 on the completed fixture job. -/
theorem retryRoute_resets_without_enqueue_witness :
    getJob c3State "J" = some (mkJobRow .completed 1 0 1)
    ∧ ((retryRoute c3State "J" none).1.queue = c3State.queue
      ∧ (retryRoute c3State "J" none).1.history = c3State.history
      ∧ (retryRoute c3State "J" none).1.worker = c3State.worker
      ∧ (retryRoute c3State "J" none).1.urls
          = c3State.urls.map (fun r => if retryRouteTarget "J" none r
              then { r with status := UrlStatus.pending, error := none } else r)
      ∧ (retryRoute c3State "J" none).2
          = .retried (c3State.urls.filter (retryRouteTarget "J" none)).length
      ∧ (retryRoute c3State "J" none).1.job
          = some (if (mkJobRow .completed 1 0 1).status = .completed
                ∨ (mkJobRow .completed 1 0 1).status = .failed
              then { mkJobRow .completed 1 0 1 with status := JobStatus.processing }
              else mkJobRow .completed 1 0 1)) :=
  ⟨rfl, retryRoute_resets_without_enqueue c3State "J" (mkJobRow .completed 1 0 1) none rfl⟩

/-- Claim C4: resuming a stopped job re-reads its items and selects exactly
those with status pending or failed; when none remain the route answers ok
and the job goes directly to completed; otherwise the job status becomes
processing, the persisted aggregates are refreshed to the number of
completed items and the number of still-failed items, and the queue gains
exactly the chunk set of the selected items (whose chunks concatenate back
to the selected items, so only they are re-partitioned and re-enqueued). -/
theorem resumeJob_selects_pending_failed (s : EngineState) (jobId : String) (j : JobRow)
    (hj : getJob s jobId = some j) (hst : j.status = .stopped) :
    ((s.urls.filter fun r => r.job_id == jobId).filter
        (fun r => r.status == UrlStatus.pending || r.status == UrlStatus.failed) = [] →
      (resumeRoute s jobId).2 = .ok
      ∧ ((resumeRoute s jobId).1.job.map JobRow.status) = some JobStatus.completed)
    ∧ ((s.urls.filter fun r => r.job_id == jobId).filter
        (fun r => r.status == UrlStatus.pending || r.status == UrlStatus.failed) ≠ [] →
      (resumeRoute s jobId).2 = .ok
      ∧ (∃ j2, (resumeRoute s jobId).1.job = some j2
          ∧ j2.status = JobStatus.processing
          ∧ j2.processed_rows = ((s.urls.filter fun r => r.job_id == jobId).filter
              (fun r => r.status == UrlStatus.completed)).length
          ∧ j2.failed_rows = ((s.urls.filter fun r => r.job_id == jobId).filter
              (fun r => r.status == UrlStatus.failed)).length)
      ∧ (resumeRoute s jobId).1.queue
          = (s.queue.filter fun m => m.jobId ≠ jobId)
            ++ addChunkedJobs jobId
                (((s.urls.filter fun r => r.job_id == jobId).filter
                  (fun r => r.status == UrlStatus.pending || r.status == UrlStatus.failed)).map
                  fun r => { id := r.id, url := r.url })
                j.content_type 500
      ∧ ((addChunkedJobs jobId
            (((s.urls.filter fun r => r.job_id == jobId).filter
              (fun r => r.status == UrlStatus.pending || r.status == UrlStatus.failed)).map
              fun r => { id := r.id, url := r.url })
            j.content_type 500).map ChunkMsg.urls).flatten
          = ((s.urls.filter fun r => r.job_id == jobId).filter
              (fun r => r.status == UrlStatus.pending || r.status == UrlStatus.failed)).map
              fun r => { id := r.id, url := r.url }) := by
  have hroute := resumeRoute_eq_resumeJob s jobId j hj hst
  constructor
  · intro hp
    have hcore := resumeJob_of_empty s jobId j hj hst hp
    rw [hroute, hcore]
    exact ⟨rfl, rfl⟩
  · intro hp
    have hcore := resumeJob_of_nonempty s jobId j hj hst hp
    have hflat : ((addChunkedJobs jobId
          (((s.urls.filter fun r => r.job_id == jobId).filter
            (fun r => r.status == UrlStatus.pending || r.status == UrlStatus.failed)).map
            fun r => ({ id := r.id, url := r.url } : UrlRef))
          j.content_type 500).map ChunkMsg.urls).flatten
        = ((s.urls.filter fun r => r.job_id == jobId).filter
            (fun r => r.status == UrlStatus.pending || r.status == UrlStatus.failed)).map
            fun r => ({ id := r.id, url := r.url } : UrlRef) := by
      unfold addChunkedJobs
      rw [buildChunkMsgs_map_urls]
      exact chunksGo_flatten 500 (by omega) _ _ (Nat.le_refl _)
    rw [hroute, hcore]
    exact ⟨rfl, ⟨_, rfl, rfl, rfl, rfl⟩, rfl, hflat⟩

/-- Witness for claim C4 on the stopped fixture job with one completed and
one pending url. -/
theorem resumeJob_selects_pending_failed_witness :
    getJob c4State "J" = some (mkJobRow .stopped 2 1 0)
    ∧ (mkJobRow .stopped 2 1 0).status = .stopped
    ∧ (((c4State.urls.filter fun r => r.job_id == "J").filter
          (fun r => r.status == UrlStatus.pending || r.status == UrlStatus.failed) = [] →
        (resumeRoute c4State "J").2 = .ok
        ∧ ((resumeRoute c4State "J").1.job.map JobRow.status) = some JobStatus.completed)
      ∧ ((c4State.urls.filter fun r => r.job_id == "J").filter
          (fun r => r.status == UrlStatus.pending || r.status == UrlStatus.failed) ≠ [] →
        (resumeRoute c4State "J").2 = .ok
        ∧ (∃ j2, (resumeRoute c4State "J").1.job = some j2
            ∧ j2.status = JobStatus.processing
            ∧ j2.processed_rows = ((c4State.urls.filter fun r => r.job_id == "J").filter
                (fun r => r.status == UrlStatus.completed)).length
            ∧ j2.failed_rows = ((c4State.urls.filter fun r => r.job_id == "J").filter
                (fun r => r.status == UrlStatus.failed)).length)
        ∧ (resumeRoute c4State "J").1.queue
            = (c4State.queue.filter fun m => m.jobId ≠ "J")
              ++ addChunkedJobs "J"
                  (((c4State.urls.filter fun r => r.job_id == "J").filter
                    (fun r => r.status == UrlStatus.pending || r.status == UrlStatus.failed)).map
                    fun r => { id := r.id, url := r.url })
                  (mkJobRow .stopped 2 1 0).content_type 500
        ∧ ((addChunkedJobs "J"
              (((c4State.urls.filter fun r => r.job_id == "J").filter
                (fun r => r.status == UrlStatus.pending || r.status == UrlStatus.failed)).map
                fun r => { id := r.id, url := r.url })
              (mkJobRow .stopped 2 1 0).content_type 500).map ChunkMsg.urls).flatten
            = ((c4State.urls.filter fun r => r.job_id == "J").filter
                (fun r => r.status == UrlStatus.pending || r.status == UrlStatus.failed)).map
                fun r => { id := r.id, url := r.url })) :=
  ⟨rfl, rfl, resumeJob_selects_pending_failed c4State "J" (mkJobRow .stopped 2 1 0) rfl rfl⟩

/-- Claim C6 counterexample: the stop route accepts the pending fixture job
(status pending, not processing): it answers ok and moves the row to
stopped, so Stop does not require status processing. -/
theorem stop_succeeds_on_pending_job :
    (getJob c6State "J").map JobRow.status = some JobStatus.pending
    ∧ (stopRoute c6State "J").2 = .ok
    ∧ ((stopRoute c6State "J").1.job.map JobRow.status) = some JobStatus.stopped :=
  ⟨rfl, rfl, rfl⟩

/-- Claim C6 (amended): Stop succeeds exactly when the job exists and its
status is neither completed nor stopped (pending, processing and failed
jobs are all accepted); stopping a completed job or an already stopped job
returns the corresponding invalid-state error and leaves the whole state
(row and counts) untouched, so counts are never double-decremented; on
success the row moves to stopped with the counters reconciled from the
urls table. -/
theorem stopRoute_guard (s : EngineState) (jobId : String) (j : JobRow)
    (hj : getJob s jobId = some j) :
    (j.status = .completed → stopRoute s jobId = (s, .cannotStopCompleted))
    ∧ (j.status = .stopped → stopRoute s jobId = (s, .alreadyStopped))
    ∧ (j.status ≠ .completed → j.status ≠ .stopped →
        (stopRoute s jobId).2 = .ok
        ∧ (∃ j2, (stopRoute s jobId).1.job = some j2
            ∧ j2.status = .stopped
            ∧ j2.processed_rows = countUrls s.urls jobId .completed
            ∧ j2.failed_rows = countUrls s.urls jobId .failed)) := by
  obtain ⟨hsb, hid⟩ := getJob_eq_some s jobId j hj
  unfold stopRoute
  rw [hj]
  dsimp only
  refine ⟨?_, ?_, ?_⟩
  · intro hc
    rw [if_pos hc]
  · intro hstop
    rw [hstop]
    simp
  · intro hc hstop
    rw [if_neg hc, if_neg hstop]
    unfold stopJob
    dsimp only
    have hj2 : getJob (removeJobChunks s jobId) jobId = some j := hj
    rw [hj2]
    dsimp only
    refine ⟨rfl, ⟨_, rfl, rfl, ?_, ?_⟩⟩
    · show countUrls s.urls j.id .completed = countUrls s.urls jobId .completed
      rw [hid]
    · show countUrls s.urls j.id .failed = countUrls s.urls jobId .failed
      rw [hid]

/-- Witness for claim C6 on the pending fixture job. -/
theorem stopRoute_guard_witness :
    getJob c6State "J" = some (mkJobRow .pending 1 0 0)
    ∧ (((mkJobRow .pending 1 0 0).status = .completed →
          stopRoute c6State "J" = (c6State, .cannotStopCompleted))
      ∧ ((mkJobRow .pending 1 0 0).status = .stopped →
          stopRoute c6State "J" = (c6State, .alreadyStopped))
      ∧ ((mkJobRow .pending 1 0 0).status ≠ .completed →
          (mkJobRow .pending 1 0 0).status ≠ .stopped →
          (stopRoute c6State "J").2 = .ok
          ∧ (∃ j2, (stopRoute c6State "J").1.job = some j2
              ∧ j2.status = .stopped
              ∧ j2.processed_rows = countUrls c6State.urls "J" .completed
              ∧ j2.failed_rows = countUrls c6State.urls "J" .failed))) :=
  ⟨rfl, stopRoute_guard c6State "J" (mkJobRow .pending 1 0 0) rfl⟩

/-- Claim C9 counterexample: start the one-item fixture job (which enqueues
queue id J-chunk-1), stop it, and resume it: the chunk enqueued by Resume
carries queue id J-chunk-1 again, an id already used by the earlier
enqueue for the same job, so Resume does not use fresh sequence numbers. -/
theorem resume_reuses_previous_queue_id :
    (runTrace c9Init [.start "J" .company, .stop "J"]).history = ["J-chunk-1"]
    ∧ (applyOp (runTrace c9Init [.start "J" .company, .stop "J"]) (.resume "J")).history
        = ["J-chunk-1", "J-chunk-1"]
    ∧ chunkQueueId "J" 1 ∈ (runTrace c9Init [.start "J" .company, .stop "J"]).history :=
  ⟨rfl, rfl, by decide⟩

/-- Claim C9 (amended): the chunks Resume enqueues are renumbered from 1:
their queue ids are jobId-chunk-1 up to jobId-chunk-k for k = ceil of the
selected item count over 500, computed independently of what was enqueued
before, with jobId-chunk-1 always first; these coincide with the ids of
any earlier enqueue pass for the job instead of being fresh, and duplicate
processing is avoided by the cleanup sweep preceding the re-enqueue, not
by construction of the sequence numbers. -/
theorem resume_restarts_sequence_numbers (s : EngineState) (jobId : String) (j : JobRow)
    (hj : getJob s jobId = some j) (hst : j.status = .stopped)
    (hp : (s.urls.filter fun r => r.job_id == jobId).filter
        (fun r => r.status == UrlStatus.pending || r.status == UrlStatus.failed) ≠ []) :
    (resumeRoute s jobId).1.history
      = s.history
        ++ (List.range' 1 ((((s.urls.filter fun r => r.job_id == jobId).filter
              (fun r => r.status == UrlStatus.pending || r.status == UrlStatus.failed)).length
              + 500 - 1) / 500)).map (chunkQueueId jobId)
    ∧ 1 ≤ (((s.urls.filter fun r => r.job_id == jobId).filter
          (fun r => r.status == UrlStatus.pending || r.status == UrlStatus.failed)).length
          + 500 - 1) / 500
    ∧ (List.range' 1 ((((s.urls.filter fun r => r.job_id == jobId).filter
          (fun r => r.status == UrlStatus.pending || r.status == UrlStatus.failed)).length
          + 500 - 1) / 500)).map (chunkQueueId jobId)
        = chunkQueueId jobId 1
          :: (List.range' 2 (((((s.urls.filter fun r => r.job_id == jobId).filter
                (fun r => r.status == UrlStatus.pending || r.status == UrlStatus.failed)).length
                + 500 - 1) / 500) - 1)).map (chunkQueueId jobId) := by
  have hpos : 0 < ((s.urls.filter fun r => r.job_id == jobId).filter
      (fun r => r.status == UrlStatus.pending || r.status == UrlStatus.failed)).length :=
    List.length_pos.2 hp
  have hk1 : 1 ≤ (((s.urls.filter fun r => r.job_id == jobId).filter
      (fun r => r.status == UrlStatus.pending || r.status == UrlStatus.failed)).length
      + 500 - 1) / 500 := by
    refine (Nat.le_div_iff_mul_le (by omega)).2 ?_
    omega
  refine ⟨?_, hk1, ?_⟩
  · have hroute := resumeRoute_eq_resumeJob s jobId j hj hst
    have hcore := resumeJob_of_nonempty s jobId j hj hst hp
    rw [hroute, hcore]
    show s.history
        ++ (addChunkedJobs jobId
            (((s.urls.filter fun r => r.job_id == jobId).filter
              (fun r => r.status == UrlStatus.pending || r.status == UrlStatus.failed)).map
              fun r => { id := r.id, url := r.url })
            j.content_type 500).map ChunkMsg.queueJobId
      = s.history ++ _
    refine congrArg _ ?_
    have hq := buildChunkMsgs_map_queueJobId jobId j.content_type 1
      (splitIntoChunks
        (((s.urls.filter fun r => r.job_id == jobId).filter
          (fun r => r.status == UrlStatus.pending || r.status == UrlStatus.failed)).map
          fun r => ({ id := r.id, url := r.url } : UrlRef)) 500)
    have hlen : (splitIntoChunks
        (((s.urls.filter fun r => r.job_id == jobId).filter
          (fun r => r.status == UrlStatus.pending || r.status == UrlStatus.failed)).map
          fun r => ({ id := r.id, url := r.url } : UrlRef)) 500).length
        = ((((s.urls.filter fun r => r.job_id == jobId).filter
            (fun r => r.status == UrlStatus.pending || r.status == UrlStatus.failed)).map
            fun r => ({ id := r.id, url := r.url } : UrlRef)).length + 500 - 1) / 500 :=
      chunksGo_length 500 (by omega) _ _ (Nat.le_refl _)
    rw [hlen, List.length_map] at hq
    exact hq
  · rcases Nat.exists_eq_add_of_le hk1 with ⟨k', hk'⟩
    rw [hk', Nat.add_comm 1 k', List.range'_succ]
    simp

/-- Witness for claim C9 on the stopped fixture job with one pending url. -/
theorem resume_restarts_sequence_numbers_witness :
    getJob c4State "J" = some (mkJobRow .stopped 2 1 0)
    ∧ (mkJobRow .stopped 2 1 0).status = .stopped
    ∧ (c4State.urls.filter fun r => r.job_id == "J").filter
        (fun r => r.status == UrlStatus.pending || r.status == UrlStatus.failed) ≠ []
    ∧ ((resumeRoute c4State "J").1.history
        = c4State.history
          ++ (List.range' 1 ((((c4State.urls.filter fun r => r.job_id == "J").filter
                (fun r => r.status == UrlStatus.pending || r.status == UrlStatus.failed)).length
                + 500 - 1) / 500)).map (chunkQueueId "J")
      ∧ 1 ≤ (((c4State.urls.filter fun r => r.job_id == "J").filter
            (fun r => r.status == UrlStatus.pending || r.status == UrlStatus.failed)).length
            + 500 - 1) / 500
      ∧ (List.range' 1 ((((c4State.urls.filter fun r => r.job_id == "J").filter
            (fun r => r.status == UrlStatus.pending || r.status == UrlStatus.failed)).length
            + 500 - 1) / 500)).map (chunkQueueId "J")
          = chunkQueueId "J" 1
            :: (List.range' 2 (((((c4State.urls.filter fun r => r.job_id == "J").filter
                  (fun r => r.status == UrlStatus.pending || r.status == UrlStatus.failed)).length
                  + 500 - 1) / 500) - 1)).map (chunkQueueId "J")) :=
  ⟨rfl, rfl, by decide,
    resume_restarts_sequence_numbers c4State "J" (mkJobRow .stopped 2 1 0) rfl rfl (by decide)⟩

/-- Claim C10: retrySpecificUrls resets exactly those rows whose job
matches, whose id is in the caller-supplied subset and whose status is
failed, setting them to pending and clearing their error; every other row
(supplied but in another status, not supplied, or of another job) is left
completely unchanged, and the returned count is the number of rows the
UPDATE touched. The id list is non-empty, reflecting the IN clause the
source interpolates into the SQL. -/
theorem retrySpecificUrls_frame (jobId : String) (job : Option JobRow) (urls : List UrlRow)
    (urlIds : List String) (hne : urlIds ≠ []) :
    ((retrySpecificUrls jobId job urls urlIds).2.1).length = urls.length
    ∧ (∀ i : Fin urls.length,
        ∀ hi : i.1 < ((retrySpecificUrls jobId job urls urlIds).2.1).length,
          ((retrySpecificUrls jobId job urls urlIds).2.1).get ⟨i.1, hi⟩
            = if isRetrySpecificTarget jobId urlIds (urls.get i)
              then { urls.get i with status := UrlStatus.pending, error := none }
              else urls.get i)
    ∧ (retrySpecificUrls jobId job urls urlIds).2.2
        = (urls.filter (isRetrySpecificTarget jobId urlIds)).length := by
  refine ⟨by simp [retrySpecificUrls], ?_, rfl⟩
  intro i hi
  simp only [retrySpecificUrls, List.get_eq_getElem, List.getElem_map]

/-- Witness for claim C10: resetting item b of a three-row table where a is
failed but not supplied, b is supplied and failed, c is supplied but
pending. -/
theorem retrySpecificUrls_frame_witness :
    (["b", "c"] : List String) ≠ []
    ∧ (((retrySpecificUrls "J" none
          [mkUrlRow "a" .failed (some "x") 1, mkUrlRow "b" .failed (some "y") 1,
            mkUrlRow "c" .pending none 0] ["b", "c"]).2.1).length
        = ([mkUrlRow "a" .failed (some "x") 1, mkUrlRow "b" .failed (some "y") 1,
            mkUrlRow "c" .pending none 0] : List UrlRow).length
      ∧ (∀ i : Fin ([mkUrlRow "a" .failed (some "x") 1, mkUrlRow "b" .failed (some "y") 1,
            mkUrlRow "c" .pending none 0] : List UrlRow).length,
          ∀ hi : i.1 < (((retrySpecificUrls "J" none
              [mkUrlRow "a" .failed (some "x") 1, mkUrlRow "b" .failed (some "y") 1,
                mkUrlRow "c" .pending none 0] ["b", "c"]).2.1)).length,
            (((retrySpecificUrls "J" none
                [mkUrlRow "a" .failed (some "x") 1, mkUrlRow "b" .failed (some "y") 1,
                  mkUrlRow "c" .pending none 0] ["b", "c"]).2.1)).get ⟨i.1, hi⟩
              = if isRetrySpecificTarget "J" ["b", "c"]
                    (([mkUrlRow "a" .failed (some "x") 1, mkUrlRow "b" .failed (some "y") 1,
                      mkUrlRow "c" .pending none 0] : List UrlRow).get i)
                then { ([mkUrlRow "a" .failed (some "x") 1, mkUrlRow "b" .failed (some "y") 1,
                        mkUrlRow "c" .pending none 0] : List UrlRow).get i with
                        status := UrlStatus.pending, error := none }
                else ([mkUrlRow "a" .failed (some "x") 1, mkUrlRow "b" .failed (some "y") 1,
                      mkUrlRow "c" .pending none 0] : List UrlRow).get i)
      ∧ (retrySpecificUrls "J" none
          [mkUrlRow "a" .failed (some "x") 1, mkUrlRow "b" .failed (some "y") 1,
            mkUrlRow "c" .pending none 0] ["b", "c"]).2.2
          = ([mkUrlRow "a" .failed (some "x") 1, mkUrlRow "b" .failed (some "y") 1,
              mkUrlRow "c" .pending none 0].filter (isRetrySpecificTarget "J" ["b", "c"])).length) :=
  ⟨by decide,
    retrySpecificUrls_frame "J" none
      [mkUrlRow "a" .failed (some "x") 1, mkUrlRow "b" .failed (some "y") 1,
        mkUrlRow "c" .pending none 0] ["b", "c"] (by decide)⟩
